import Mathlib

/-!
# Gearsystem: VDP colour conversion, control port, H-counter table, controller detection

A shallow embedding of the parts of `src/Video.h` (Sega Master System / Game Gear
video display processor) that the verified properties are about:

* `Video::ConvertTo8BitColor` (Video.h lines 84-110), translated line by line;
* the operation-code constants `VDP_*_OPERATION` (Video.h lines 25-28);
* the control-port operation `Video::WriteControl`, which Video.h only declares
  (its body lives in Video.cpp); it is modelled from the specification, section 4.1;
* the H-counter table `kVdpHCounter` (Video.h lines 112-135);
* the controller detection loop of `sdl_init`
  (platforms/desktop-shared/application.cpp lines 173-193).

Machine integers: a `u8` cell is a `Fin 256`, a `u16` cell a `Fin 65536`. Arithmetic
is done on `Nat` (the C++ operands are promoted to `int`, and every operand here is
non-negative) and a store into a cell truncates explicitly (`toU8`, `toU16`).
-/

namespace Gearsystem

/-- The unsigned 8-bit cell type `u8` of the source. -/
abbrev u8 := Fin 256

/-- The unsigned 16-bit cell type `u16` of the source. -/
abbrev u16 := Fin 65536

/-- Store of an `int` value into a `u8` cell: truncation modulo 2^8. -/
def toU8 (x : Nat) : u8 := ⟨x % 256, Nat.mod_lt x (by decide)⟩

/-- Store of an `int` value into a `u16` cell: truncation modulo 2^16. -/
def toU16 (x : Nat) : u16 := ⟨x % 65536, Nat.mod_lt x (by decide)⟩

/-- Video.h line 25. -/
def VDP_READ_VRAM_OPERATION : Nat := 0x00

/-- Video.h line 26. -/
def VDP_WRITE_VRAM_OPERATION : Nat := 0x01

/-- Video.h line 27. -/
def VDP_WRITE_REG_OPERATION : Nat := 0x02

/-- Video.h line 28. -/
def VDP_WRITE_CRAM_OPERATION : Nat := 0x03

/-- Modelled from the spec: the colour record `GS_Color`, declared in definitions.h which is
not among the sources. The spec describes one frame-buffer pixel as 32-bit RGBA, that is
four 8-bit channels; `ConvertTo8BitColor` assigns exactly the fields `red`, `green`,
`blue` and `alpha`. -/
structure GS_Color where
  red : u8
  green : u8
  blue : u8
  alpha : u8
deriving DecidableEq, Repr

/-- The data members of `class Video` (Video.h lines 55-81) that the embedded operations read
or write. `m_pVdpCRAM` is the heap buffer behind the `u8*`, of whatever length it was
allocated with; `m_pVdpVRAM` is the 16 KiB video RAM and `m_VdpRegister` the array `u8[16]`.
`m_iRequestINT` counts the calls made to `Processor::RequestINT` through `m_pProcessor`. -/
structure Video where
  m_pVdpVRAM : Fin 0x4000 → u8
  m_pVdpCRAM : List u8
  m_bFirstByteInSequence : Bool
  m_VdpLatch : u8
  m_VdpRegister : Fin 16 → u8
  m_VdpCode : u8
  m_VdpBuffer : u8
  m_VdpAddress : u16
  m_VdpStatus : u8
  m_bHBlankInterrupt : Bool
  m_bGameGear : Bool
  m_iRequestINT : Nat

/-- The read `m_pVdpCRAM[offset]` with an `int` offset, promoted to `int`: defined only when
the offset lies inside the buffer (a read outside it is undefined behaviour). -/
def readCRAM (v : Video) (offset : Int) : Option Nat :=
  if offset < 0 then none
  else (v.m_pVdpCRAM[offset.toNat]?).map Fin.val

/-- Translation of `Video::ConvertTo8BitColor` (Video.h lines 84-110). The three reads of each
branch are kept as the three reads of the source, in source order. -/
def ConvertTo8BitColor (v : Video) (palette_color : Int) : Option GS_Color :=
  if v.m_bGameGear then do
    let palette_color_2 : Int := palette_color <<< (1 : Int)
    let r := (← readCRAM v palette_color_2) &&& 0x0F
    let g := ((← readCRAM v palette_color_2) >>> 4) &&& 0x0F
    let b := (← readCRAM v (palette_color_2 + 1)) &&& 0x0F
    let highest_value := 15
    pure { red := toU8 ((r * 255) / highest_value)
           green := toU8 ((g * 255) / highest_value)
           blue := toU8 ((b * 255) / highest_value)
           alpha := toU8 0xFF }
  else do
    let r := (← readCRAM v palette_color) &&& 0x03
    let g := ((← readCRAM v palette_color) >>> 2) &&& 0x03
    let b := ((← readCRAM v palette_color) >>> 4) &&& 0x03
    let highest_value := 3
    pure { red := toU8 ((r * 255) / highest_value)
           green := toU8 ((g * 255) / highest_value)
           blue := toU8 ((b * 255) / highest_value)
           alpha := toU8 0xFF }

/-- Modelled from the spec: the CRAM size of the active variant, which Video.h does not state
(the buffer is allocated in Video.cpp): 32 bytes on the Master System, 64 bytes on the
Game Gear. -/
def cramSize (gameGear : Bool) : Nat := if gameGear then 64 else 32

/-- The CRAM offsets indexed by `ConvertTo8BitColor`, in source order: Video.h lines 90-92 in
Game Gear mode, lines 97-99 in Master System mode. -/
def cramOffsets (gameGear : Bool) (palette_color : Int) : List Int :=
  if gameGear then
    let palette_color_2 : Int := palette_color <<< (1 : Int)
    [palette_color_2, palette_color_2, palette_color_2 + 1]
  else
    [palette_color, palette_color, palette_color]

/-- The cell `m_pVdpVRAM[address]` of the 16 KiB video RAM. Every address the control port
forms is below 0x4000 (see `control_address_lt`), so the reduction is the identity there. -/
def readVRAM (v : Video) (address : Nat) : u8 :=
  v.m_pVdpVRAM ⟨address % 0x4000, Nat.mod_lt address (by decide)⟩

/-- The store `m_VdpRegister[reg_index] = value` into the array `u8[16]`; `reg_index` is a
4-bit value. -/
def writeRegister (v : Video) (reg_index : Nat) (value : u8) : Video :=
  { v with m_VdpRegister :=
      Function.update v.m_VdpRegister ⟨reg_index % 16, Nat.mod_lt reg_index (by decide)⟩ value }

/-- Modelled from the spec: the body of `Video::WriteControl`, which Video.h line 46 only
declares (Video.cpp is not among the sources). Section 4.1: if the first-byte latch is empty,
store the byte in the latch and mark the latch occupied. Otherwise form
`address = (high6 << 8) | low8` with `high6` the low six bits of the byte and `low8` the
latched byte, set `code = byte >> 6` and mark the latch empty. If `code == READ_VRAM`,
pre-fetch `VRAM[address]` into the read buffer and increment the address with 14-bit wrap. If
`code == WRITE_REG`, write the latched low byte to register `high6 & 0x0F`; when that turns on
the line enable (register 0, bit 4) while a line interrupt is pending, or the frame enable
(register 1, bit 5) while the frame interrupt is pending (status bit 7), the interrupt is
asserted through `RequestINT`.

The member `m_bFirstByteInSequence` is true when the next control byte is the first of a
sequence, that is, when the latch is empty. -/
def WriteControl (v : Video) (control : u8) : Video :=
  if v.m_bFirstByteInSequence then
    { v with m_VdpLatch := control, m_bFirstByteInSequence := false }
  else
    let high6 := control.val &&& 0x3F
    let address := (high6 <<< 8) ||| v.m_VdpLatch.val
    let code := control.val >>> 6
    let v1 : Video :=
      { v with m_VdpAddress := toU16 address
               m_VdpCode := toU8 code
               m_bFirstByteInSequence := true }
    if code = VDP_READ_VRAM_OPERATION then
      { v1 with m_VdpBuffer := readVRAM v1 address
                m_VdpAddress := toU16 ((address + 1) &&& 0x3FFF) }
    else if code = VDP_WRITE_REG_OPERATION then
      let reg_index := high6 &&& 0x0F
      let old_value := (v1.m_VdpRegister ⟨reg_index % 16, Nat.mod_lt reg_index (by decide)⟩).val
      let new_value := v1.m_VdpLatch.val
      let v2 := writeRegister v1 reg_index v1.m_VdpLatch
      let line_on := reg_index = 0 ∧ old_value &&& 0x10 = 0 ∧ new_value &&& 0x10 ≠ 0
      let frame_on := reg_index = 1 ∧ old_value &&& 0x20 = 0 ∧ new_value &&& 0x20 ≠ 0
      if (line_on ∧ v2.m_bHBlankInterrupt = true) ∨
          (frame_on ∧ v2.m_VdpStatus.val &&& 0x80 ≠ 0) then
        { v2 with m_iRequestINT := v2.m_iRequestINT + 1 }
      else v2
    else v1

/-- A VDP instance used to evaluate the operations on concrete inputs: cleared memories and
registers, empty control latch, the given variant and the given CRAM bytes. -/
def sampleVideo (gameGear : Bool) (cram : List u8) : Video :=
  { m_pVdpVRAM := fun _ => 0
    m_pVdpCRAM := cram
    m_bFirstByteInSequence := true
    m_VdpLatch := 0
    m_VdpRegister := fun _ => 0
    m_VdpCode := 0
    m_VdpBuffer := 0
    m_VdpAddress := 0
    m_VdpStatus := 0
    m_bHBlankInterrupt := false
    m_bGameGear := gameGear
    m_iRequestINT := 0 }

/-- The channel intensities a 2-bit Master System channel can take. -/
def smsLevels : List Nat := [0, 85, 170, 255]

/-- The channel intensities a 4-bit Game Gear channel can take: 0, 17, 34, ..., 255. -/
def ggLevels : List Nat := (List.range 16).map (fun k => 17 * k)

/-- The initialisers of `kVdpHCounter` (Video.h lines 113-134), row by row as in the source. -/
def kVdpHCounterInitialisers : List u8 :=
  [
   0x00, 0x01, 0x02, 0x03, 0x04, 0x05, 0x06, 0x07, 0x08, 0x09, 0x0A, 0x0B, 0x0C, 0x0D, 0x0E, 0x0F,
   0x10, 0x11, 0x12, 0x13, 0x14, 0x15, 0x16, 0x17, 0x18, 0x19, 0x1A, 0x1B, 0x1C, 0x1D, 0x1E, 0x1F,
   0x20, 0x21, 0x22, 0x23, 0x24, 0x25, 0x26, 0x27, 0x28, 0x29, 0x2A, 0x2B, 0x2C, 0x2D, 0x2E, 0x2F,
   0x30, 0x31, 0x32, 0x33, 0x34, 0x35, 0x36, 0x37, 0x38, 0x39, 0x3A, 0x3B, 0x3C, 0x3D, 0x3E, 0x3F,
   0x40, 0x41, 0x42, 0x43, 0x44, 0x45, 0x46, 0x47, 0x48, 0x49, 0x4A, 0x4B, 0x4C, 0x4D, 0x4E, 0x4F,
   0x50, 0x51, 0x52, 0x53, 0x54, 0x55, 0x56, 0x57, 0x58, 0x59, 0x5A, 0x5B, 0x5C, 0x5D, 0x5E, 0x5F,
   0x60, 0x61, 0x62, 0x63, 0x64, 0x65, 0x66, 0x67, 0x68, 0x69, 0x6A, 0x6B, 0x6C, 0x6D, 0x6E, 0x6F,
   0x70, 0x71, 0x72, 0x73, 0x74, 0x75, 0x76, 0x77, 0x78, 0x79, 0x7A, 0x7B, 0x7C, 0x7D, 0x7E, 0x7F,
   0x80, 0x81, 0x82, 0x83, 0x84, 0x85, 0x86, 0x87, 0x88, 0x89, 0x8A, 0x8B, 0x8C, 0x8D, 0x8E, 0x8F,
   0x90, 0x91, 0x92, 0x93, 0x94, 0x95, 0x96, 0x97, 0x98, 0x99, 0x9A, 0x9B, 0x9C, 0x9D, 0x9E, 0x9F,
   0xA0, 0xA1, 0xA2, 0xA3, 0xA4, 0xA5, 0xA6, 0xA7, 0xA8, 0xA9, 0xAA, 0xAB, 0xAC, 0xAD, 0xAE, 0xAF,
   0xB0, 0xB1, 0xB2, 0xB3, 0xB4, 0xB5, 0xB6, 0xB7, 0xB8, 0xB9, 0xBA, 0xBB, 0xBC, 0xBD, 0xBE, 0xBF,
   0xC0, 0xC1, 0xC2, 0xC3, 0xC4, 0xC5, 0xC6, 0xC7, 0xC8, 0xC9, 0xCA, 0xCB, 0xCC, 0xCD, 0xCE, 0xCF,
   0xD0, 0xD1, 0xD2, 0xD3, 0xD4, 0xD5, 0xD6, 0xD7, 0xD8, 0xD9, 0xDA, 0xDB, 0xDC, 0xDD, 0xDE, 0xDF,
   0xE0, 0xE1, 0xE2, 0xE3, 0xE4, 0xE5, 0xE6, 0xE7, 0xE8, 0xE9,
   0x93, 0x94, 0x95, 0x96, 0x97, 0x98, 0x99, 0x9A, 0x9B, 0x9C, 0x9D, 0x9E, 0x9F,
   0xA0, 0xA1, 0xA2, 0xA3, 0xA4, 0xA5, 0xA6, 0xA7, 0xA8, 0xA9, 0xAA, 0xAB, 0xAC, 0xAD, 0xAE, 0xAF,
   0xB0, 0xB1, 0xB2, 0xB3, 0xB4, 0xB5, 0xB6, 0xB7, 0xB8, 0xB9, 0xBA, 0xBB, 0xBC, 0xBD, 0xBE, 0xBF,
   0xC0, 0xC1, 0xC2, 0xC3, 0xC4, 0xC5, 0xC6, 0xC7, 0xC8, 0xC9, 0xCA, 0xCB, 0xCC, 0xCD, 0xCE, 0xCF,
   0xD0, 0xD1, 0xD2, 0xD3, 0xD4, 0xD5, 0xD6, 0xD7, 0xD8, 0xD9, 0xDA, 0xDB, 0xDC, 0xDD, 0xDE, 0xDF,
   0xE0, 0xE1, 0xE2, 0xE3, 0xE4, 0xE5, 0xE6, 0xE7, 0xE8, 0xE9, 0xEA, 0xEB, 0xEC, 0xED, 0xEE, 0xEF,
   0xF0, 0xF1, 0xF2, 0xF3, 0xF4, 0xF5, 0xF6, 0xF7, 0xF8, 0xF9, 0xFA, 0xFB, 0xFC, 0xFD, 0xFE, 0xFF]

/-- The table `const u8 kVdpHCounter[0x200]` (Video.h line 112): the initialisers, followed by
zeroes for the entries the initialiser list does not reach (aggregate initialisation). -/
def kVdpHCounter : List u8 :=
  kVdpHCounterInitialisers ++ List.replicate (0x200 - kVdpHCounterInitialisers.length) 0

/-- Reference definition of the H-counter table, following the claim: `i` for `0 <= i <= 233`,
`i - 87` for `234 <= i <= 342`, and 0 for `343 <= i <= 511`. -/
def hCounterReference (i : Nat) : Nat :=
  if i ≤ 233 then i
  else if i ≤ 342 then i - 87
  else 0

/-- The part of the environment that the controller detection loop of `sdl_init` consults:
the value of `SDL_NumJoysticks()`, the answer of `SDL_IsGameController(i)` and the result of
`SDL_GameControllerOpen(i)` for each joystick index (`none` is the null pointer, `some h` a
controller handle). -/
structure SdlJoysticks where
  SDL_NumJoysticks : Nat
  SDL_IsGameController : Nat → Bool
  SDL_GameControllerOpen : Nat → Option Nat

/-- The state of the detection loop: the local `gamepads_found` and, in program order, every
store `application_gamepad[slot] = handle` made so far, as the pair `(slot, handle)`. -/
structure GamepadScan where
  gamepads_found : Nat
  stores : List (Nat × Option Nat)
deriving DecidableEq, Repr

/-- The loop `for (int i = 0; i < SDL_NumJoysticks(); ++i)` of `sdl_init`
(application.cpp lines 175-193), entered at index `i` with `remaining` iterations left before
`i < SDL_NumJoysticks()` fails. A controller is stored at slot `gamepads_found` before the
result is tested; a successful open increments `gamepads_found` and breaks out when
`gamepads_found > 2`. -/
def gamepadLoop (sdl : SdlJoysticks) : Nat → Nat → GamepadScan → GamepadScan
  | 0, _, s => s
  | remaining + 1, i, s =>
    if sdl.SDL_IsGameController i then
      let handle := sdl.SDL_GameControllerOpen i
      let s1 : GamepadScan := { s with stores := s.stores ++ [(s.gamepads_found, handle)] }
      match handle with
      | none => gamepadLoop sdl remaining (i + 1) s1
      | some _ =>
        let s2 : GamepadScan := { s1 with gamepads_found := s1.gamepads_found + 1 }
        if s2.gamepads_found > 2 then s2
        else gamepadLoop sdl remaining (i + 1) s2
    else gamepadLoop sdl remaining (i + 1) s

/-- The controller detection of `sdl_init` (application.cpp lines 173-193):
`int gamepads_found = 0;` followed by the loop from `i = 0`. -/
def sdl_init_gamepads (sdl : SdlJoysticks) : GamepadScan :=
  gamepadLoop sdl sdl.SDL_NumJoysticks 0 { gamepads_found := 0, stores := [] }

/-! ## Auxiliary facts -/

theorem toU8_val (x : Nat) : (toU8 x).val = x % 256 := rfl

theorem and3_eq_mod (x : Nat) : x &&& 3 = x % 4 :=
  Nat.and_pow_two_sub_one_eq_mod x 2

theorem and15_eq_mod (x : Nat) : x &&& 15 = x % 16 :=
  Nat.and_pow_two_sub_one_eq_mod x 4

theorem and63_eq_mod (x : Nat) : x &&& 63 = x % 64 :=
  Nat.and_pow_two_sub_one_eq_mod x 6

theorem shr2_eq_div (x : Nat) : x >>> 2 = x / 4 :=
  Nat.shiftRight_eq_div_pow x 2

theorem shr4_eq_div (x : Nat) : x >>> 4 = x / 16 :=
  Nat.shiftRight_eq_div_pow x 4

theorem shr6_eq_div (x : Nat) : x >>> 6 = x / 64 :=
  Nat.shiftRight_eq_div_pow x 6

theorem shr8_eq_div (x : Nat) : x >>> 8 = x / 256 :=
  Nat.shiftRight_eq_div_pow x 8

/-- A low byte or-ed with a byte shifted left by eight is their positional sum. -/
theorem or_shl8_eq_add (lo hi : Nat) (hlo : lo < 256) : lo ||| (hi <<< 8) = 256 * hi + lo := by
  have h := Nat.mul_add_lt_is_or (i := 8) (b := lo) hlo hi
  rw [Nat.shiftLeft_eq, Nat.lor_comm, Nat.mul_comm hi (2 ^ 8)]
  exact h.symm

theorem shl1_eq_mul (p : Int) : p <<< (1 : Int) = p * 2 := by
  have h := Int.shiftLeft_eq_mul_pow p 1
  simpa using h

/-- A byte read from CRAM is below 256. -/
theorem readCRAM_lt (v : Video) (o : Int) (b : Nat) (h : readCRAM v o = some b) : b < 256 := by
  unfold readCRAM at h
  split at h
  · simp at h
  · simp only [Option.map_eq_some'] at h
    obtain ⟨x, _, hx⟩ := h
    rw [← hx]
    exact x.isLt

/-- The Master System branch, given the byte it reads. -/
theorem ConvertTo8BitColor_sms (v : Video) (p : Int) (b : Nat)
    (hmode : v.m_bGameGear = false) (hread : readCRAM v p = some b) :
    ConvertTo8BitColor v p = some
      { red := toU8 (((b &&& 0x03) * 255) / 3)
        green := toU8 ((((b >>> 2) &&& 0x03) * 255) / 3)
        blue := toU8 ((((b >>> 4) &&& 0x03) * 255) / 3)
        alpha := toU8 0xFF } := by
  simp [ConvertTo8BitColor, hmode, hread]

/-- The Game Gear branch, given the two bytes it reads. -/
theorem ConvertTo8BitColor_gg (v : Video) (p : Int) (lo hi : Nat)
    (hmode : v.m_bGameGear = true)
    (hlo : readCRAM v (p * 2) = some lo) (hhi : readCRAM v (p * 2 + 1) = some hi) :
    ConvertTo8BitColor v p = some
      { red := toU8 (((lo &&& 0x0F) * 255) / 15)
        green := toU8 ((((lo >>> 4) &&& 0x0F) * 255) / 15)
        blue := toU8 (((hi &&& 0x0F) * 255) / 15)
        alpha := toU8 0xFF } := by
  simp [ConvertTo8BitColor, hmode, shl1_eq_mul, hlo, hhi]

/-- The Master System branch as a function of the one CRAM read. -/
theorem ConvertTo8BitColor_sms_eq (v : Video) (p : Int) (hmode : v.m_bGameGear = false) :
    ConvertTo8BitColor v p = (readCRAM v p).map (fun b =>
      { red := toU8 (((b &&& 0x03) * 255) / 3)
        green := toU8 ((((b >>> 2) &&& 0x03) * 255) / 3)
        blue := toU8 ((((b >>> 4) &&& 0x03) * 255) / 3)
        alpha := toU8 0xFF }) := by
  cases h : readCRAM v p with
  | none => simp [ConvertTo8BitColor, hmode, h]
  | some b => simp [ConvertTo8BitColor, hmode, h]

/-- The Game Gear branch as a function of the two CRAM reads. -/
theorem ConvertTo8BitColor_gg_eq (v : Video) (p : Int) (hmode : v.m_bGameGear = true) :
    ConvertTo8BitColor v p = (readCRAM v (p * 2)).bind (fun lo =>
      (readCRAM v (p * 2 + 1)).map (fun hi =>
        { red := toU8 (((lo &&& 0x0F) * 255) / 15)
          green := toU8 ((((lo >>> 4) &&& 0x0F) * 255) / 15)
          blue := toU8 (((hi &&& 0x0F) * 255) / 15)
          alpha := toU8 0xFF })) := by
  cases hlo : readCRAM v (p * 2) with
  | none => simp [ConvertTo8BitColor, hmode, shl1_eq_mul, hlo]
  | some lo =>
    cases hhi : readCRAM v (p * 2 + 1) with
    | none => simp [ConvertTo8BitColor, hmode, shl1_eq_mul, hlo, hhi]
    | some hi => simp [ConvertTo8BitColor, hmode, shl1_eq_mul, hlo, hhi]

/-- A CRAM read succeeds exactly at the offsets inside the buffer. -/
theorem readCRAM_isSome_iff (v : Video) (o : Int) :
    (readCRAM v o).isSome = true ↔ 0 ≤ o ∧ o < v.m_pVdpCRAM.length := by
  unfold readCRAM
  split
  · simp only [Option.isSome_none, Bool.false_eq_true, false_iff]
    omega
  · cases hx : v.m_pVdpCRAM[o.toNat]? with
    | none =>
      have := List.getElem?_eq_none_iff.mp hx
      simp only [Option.map_none', Option.isSome_none, Bool.false_eq_true, false_iff]
      omega
    | some x =>
      obtain ⟨hlt, _⟩ := List.getElem?_eq_some_iff.mp hx
      simp only [Option.map_some', Option.isSome_some, true_iff]
      omega

/-- `ConvertTo8BitColor` returns a colour exactly when every offset it indexes is inside the
CRAM buffer. -/
theorem ConvertTo8BitColor_isSome_iff (v : Video) (p : Int) :
    (ConvertTo8BitColor v p).isSome = true ↔
      ∀ o ∈ cramOffsets v.m_bGameGear p, (readCRAM v o).isSome = true := by
  cases hmode : v.m_bGameGear with
  | false =>
    rw [ConvertTo8BitColor_sms_eq v p hmode]
    simp [cramOffsets]
  | true =>
    rw [ConvertTo8BitColor_gg_eq v p hmode]
    simp only [cramOffsets, shl1_eq_mul, if_true, List.mem_cons, List.mem_singleton,
      List.mem_nil_iff, or_false, forall_eq_or_imp, forall_eq]
    cases readCRAM v (p * 2) with
    | none => simp
    | some lo =>
      cases readCRAM v (p * 2 + 1) with
      | none => simp
      | some hi => simp

theorem mem_ggLevels (x k : Nat) (hk : k < 16) (hx : x = 17 * k) : x ∈ ggLevels := by
  unfold ggLevels
  simp only [List.mem_map, List.mem_range]
  exact ⟨k, hk, hx.symm⟩

/-! ## Colour conversion -/

/-- C1. Master System mode: with `b` the byte at CRAM offset `p`, read as `--BBGGRR`,
`ConvertTo8BitColor p` returns red `((b & 3) * 255) / 3`, green `(((b >> 2) & 3) * 255) / 3`
and blue `(((b >> 4) & 3) * 255) / 3`. -/
theorem sms_channels_from_cram_byte (v : Video) (p : Int) (b : Nat)
    (hmode : v.m_bGameGear = false) (hread : readCRAM v p = some b) :
    ∃ c : GS_Color, ConvertTo8BitColor v p = some c ∧
      c.red.val = ((b &&& 3) * 255) / 3 ∧
      c.green.val = (((b >>> 2) &&& 3) * 255) / 3 ∧
      c.blue.val = (((b >>> 4) &&& 3) * 255) / 3 := by
  refine ⟨_, ConvertTo8BitColor_sms v p b hmode hread, ?_, ?_, ?_⟩
  · simp only [toU8_val, and3_eq_mod]; omega
  · simp only [toU8_val, and3_eq_mod, shr2_eq_div]; omega
  · simp only [toU8_val, and3_eq_mod, shr4_eq_div]; omega

theorem sms_channels_from_cram_byte_witness :
    ∃ c : GS_Color, ConvertTo8BitColor (sampleVideo false [0x3F, 0x1B]) 1 = some c ∧
      c.red.val = ((0x1B &&& 3) * 255) / 3 ∧
      c.green.val = (((0x1B >>> 2) &&& 3) * 255) / 3 ∧
      c.blue.val = (((0x1B >>> 4) &&& 3) * 255) / 3 :=
  sms_channels_from_cram_byte (sampleVideo false [0x3F, 0x1B]) 1 0x1B (by decide) (by decide)

/-- C2. Game Gear mode: with `lo`, `hi` the bytes at CRAM offsets `2p` and `2p+1` and
`w = lo | (hi << 8)` the little-endian word read as `----BBBBGGGGRRRR`,
`ConvertTo8BitColor p` returns red `((w & 0xF) * 255) / 15`,
green `(((w >> 4) & 0xF) * 255) / 15` and blue `(((w >> 8) & 0xF) * 255) / 15`. -/
theorem gg_channels_from_cram_word (v : Video) (p : Int) (lo hi : Nat)
    (hmode : v.m_bGameGear = true)
    (hlo : readCRAM v (2 * p) = some lo) (hhi : readCRAM v (2 * p + 1) = some hi) :
    ∃ c : GS_Color, ConvertTo8BitColor v p = some c ∧
      c.red.val = (((lo ||| (hi <<< 8)) &&& 0xF) * 255) / 15 ∧
      c.green.val = ((((lo ||| (hi <<< 8)) >>> 4) &&& 0xF) * 255) / 15 ∧
      c.blue.val = ((((lo ||| (hi <<< 8)) >>> 8) &&& 0xF) * 255) / 15 := by
  have hlt := readCRAM_lt v _ lo hlo
  rw [Int.mul_comm] at hlo hhi
  have hr : (256 * hi + lo) % 16 = lo % 16 := by omega
  have hg : (256 * hi + lo) / 16 % 16 = lo / 16 % 16 := by omega
  have hb : (256 * hi + lo) / 256 % 16 = hi % 16 := by omega
  refine ⟨_, ConvertTo8BitColor_gg v p lo hi hmode hlo hhi, ?_, ?_, ?_⟩
  · simp only [toU8_val, and15_eq_mod, or_shl8_eq_add lo hi hlt, hr]; omega
  · simp only [toU8_val, and15_eq_mod, shr4_eq_div, or_shl8_eq_add lo hi hlt, hg]; omega
  · simp only [toU8_val, and15_eq_mod, shr8_eq_div, or_shl8_eq_add lo hi hlt, hb]; omega

theorem gg_channels_from_cram_word_witness :
    ∃ c : GS_Color, ConvertTo8BitColor (sampleVideo true [0x3F, 0x1B, 0x21, 0xF7]) 1 = some c ∧
      c.red.val = (((0x21 ||| (0xF7 <<< 8)) &&& 0xF) * 255) / 15 ∧
      c.green.val = ((((0x21 ||| (0xF7 <<< 8)) >>> 4) &&& 0xF) * 255) / 15 ∧
      c.blue.val = ((((0x21 ||| (0xF7 <<< 8)) >>> 8) &&& 0xF) * 255) / 15 :=
  gg_channels_from_cram_word (sampleVideo true [0x3F, 0x1B, 0x21, 0xF7]) 1 0x21 0xF7
    (by decide) (by decide) (by decide)

/-- C3. Every channel returned by `ConvertTo8BitColor` is an exact multiple of the channel
value it was computed from: in Master System mode `85 * c` for the 2-bit value `c`, hence one
of 0, 85, 170, 255; in Game Gear mode `17 * c` for the 4-bit value `c`, hence one of
0, 17, ..., 255. The value fits in 8 bits (the store into the `u8` field does not truncate),
`c = 0` gives 0 and the maximal `c` gives 255. -/
theorem channel_levels (v : Video) (p : Int) :
    (v.m_bGameGear = false → ∀ b : Nat, readCRAM v p = some b →
      ∃ c : GS_Color, ConvertTo8BitColor v p = some c ∧
        ∀ ch ∈ [(c.red.val, b &&& 3), (c.green.val, (b >>> 2) &&& 3),
                (c.blue.val, (b >>> 4) &&& 3)],
          ch.1 = (ch.2 * 255) / 3 ∧ ch.1 = 85 * ch.2 ∧ ch.2 ≤ 3 ∧ ch.1 ∈ smsLevels ∧
          ch.1 ≤ 255 ∧ (ch.2 = 0 → ch.1 = 0) ∧ (ch.2 = 3 → ch.1 = 255)) ∧
    (v.m_bGameGear = true → ∀ lo hi : Nat,
      readCRAM v (2 * p) = some lo → readCRAM v (2 * p + 1) = some hi →
      ∃ c : GS_Color, ConvertTo8BitColor v p = some c ∧
        ∀ ch ∈ [(c.red.val, lo &&& 0xF), (c.green.val, (lo >>> 4) &&& 0xF),
                (c.blue.val, hi &&& 0xF)],
          ch.1 = (ch.2 * 255) / 15 ∧ ch.1 = 17 * ch.2 ∧ ch.2 ≤ 15 ∧ ch.1 ∈ ggLevels ∧
          ch.1 ≤ 255 ∧ (ch.2 = 0 → ch.1 = 0) ∧ (ch.2 = 15 → ch.1 = 255)) := by
  have sms : ∀ n : Nat, ((n % 4 * 255 / 3) % 256 = n % 4 * 255 / 3) ∧
      ((n % 4 * 255 / 3) % 256 = 85 * (n % 4)) ∧ n % 4 ≤ 3 ∧
      ((n % 4 * 255 / 3) % 256 ∈ smsLevels) ∧ (n % 4 * 255 / 3) % 256 ≤ 255 ∧
      (n % 4 = 0 → (n % 4 * 255 / 3) % 256 = 0) ∧
      (n % 4 = 3 → (n % 4 * 255 / 3) % 256 = 255) := by
    intro n
    have e : (n % 4 * 255 / 3) % 256 = 85 * (n % 4) := by omega
    refine ⟨by omega, e, by omega, ?_, by omega, by omega, by omega⟩
    rw [e]
    simp only [smsLevels, List.mem_cons, List.mem_singleton, List.mem_nil_iff, or_false]
    omega
  have gg : ∀ n : Nat, ((n % 16 * 255 / 15) % 256 = n % 16 * 255 / 15) ∧
      ((n % 16 * 255 / 15) % 256 = 17 * (n % 16)) ∧ n % 16 ≤ 15 ∧
      ((n % 16 * 255 / 15) % 256 ∈ ggLevels) ∧ (n % 16 * 255 / 15) % 256 ≤ 255 ∧
      (n % 16 = 0 → (n % 16 * 255 / 15) % 256 = 0) ∧
      (n % 16 = 15 → (n % 16 * 255 / 15) % 256 = 255) := by
    intro n
    have e : (n % 16 * 255 / 15) % 256 = 17 * (n % 16) := by omega
    exact ⟨by omega, e, by omega, mem_ggLevels _ (n % 16) (by omega) e, by omega, by omega,
      by omega⟩
  constructor
  · intro hmode b hread
    refine ⟨_, ConvertTo8BitColor_sms v p b hmode hread, ?_⟩
    intro ch hch
    simp only [List.mem_cons, List.mem_singleton, List.mem_nil_iff, or_false] at hch
    rcases hch with rfl | rfl | rfl
    · simpa only [toU8_val, and3_eq_mod] using sms b
    · simpa only [toU8_val, and3_eq_mod] using sms (b >>> 2)
    · simpa only [toU8_val, and3_eq_mod] using sms (b >>> 4)
  · intro hmode lo hi hlo hhi
    rw [Int.mul_comm] at hlo hhi
    refine ⟨_, ConvertTo8BitColor_gg v p lo hi hmode hlo hhi, ?_⟩
    intro ch hch
    simp only [List.mem_cons, List.mem_singleton, List.mem_nil_iff, or_false] at hch
    rcases hch with rfl | rfl | rfl
    · simpa only [toU8_val, and15_eq_mod] using gg lo
    · simpa only [toU8_val, and15_eq_mod] using gg (lo >>> 4)
    · simpa only [toU8_val, and15_eq_mod] using gg hi

theorem channel_levels_witness :
    (∃ c : GS_Color, ConvertTo8BitColor (sampleVideo false [0x3F, 0x1B]) 1 = some c ∧
        ∀ ch ∈ [(c.red.val, 0x1B &&& 3), (c.green.val, (0x1B >>> 2) &&& 3),
                (c.blue.val, (0x1B >>> 4) &&& 3)],
          ch.1 = (ch.2 * 255) / 3 ∧ ch.1 = 85 * ch.2 ∧ ch.2 ≤ 3 ∧ ch.1 ∈ smsLevels ∧
          ch.1 ≤ 255 ∧ (ch.2 = 0 → ch.1 = 0) ∧ (ch.2 = 3 → ch.1 = 255)) ∧
    (∃ c : GS_Color,
        ConvertTo8BitColor (sampleVideo true [0x3F, 0x1B, 0x21, 0xF7]) 1 = some c ∧
        ∀ ch ∈ [(c.red.val, 0x21 &&& 0xF), (c.green.val, (0x21 >>> 4) &&& 0xF),
                (c.blue.val, 0xF7 &&& 0xF)],
          ch.1 = (ch.2 * 255) / 15 ∧ ch.1 = 17 * ch.2 ∧ ch.2 ≤ 15 ∧ ch.1 ∈ ggLevels ∧
          ch.1 ≤ 255 ∧ (ch.2 = 0 → ch.1 = 0) ∧ (ch.2 = 15 → ch.1 = 255)) :=
  ⟨(channel_levels (sampleVideo false [0x3F, 0x1B]) 1).1 (by decide) 0x1B (by decide),
   (channel_levels (sampleVideo true [0x3F, 0x1B, 0x21, 0xF7]) 1).2 (by decide) 0x21 0xF7
     (by decide) (by decide)⟩

/-- C4. Game Gear mode: two CRAM contents of the same size that differ only at the odd
offset `2p+1` give the same red and green for palette index `p` (the odd byte holds only
blue), and two that differ only at the even offset `2p` give the same blue (the even byte
holds only red and green). Master System mode: two CRAM contents that agree at offset `p`
give the same colour for palette index `p`. -/
theorem cram_byte_footprint (v1 v2 : Video) (p : Int)
    (hvariant : v1.m_bGameGear = v2.m_bGameGear) :
    (v1.m_bGameGear = true → v1.m_pVdpCRAM.length = v2.m_pVdpCRAM.length →
      (∀ o : Int, o ≠ 2 * p + 1 → readCRAM v1 o = readCRAM v2 o) →
      (ConvertTo8BitColor v1 p).map (fun c => (c.red, c.green)) =
        (ConvertTo8BitColor v2 p).map (fun c => (c.red, c.green))) ∧
    (v1.m_bGameGear = true → v1.m_pVdpCRAM.length = v2.m_pVdpCRAM.length →
      (∀ o : Int, o ≠ 2 * p → readCRAM v1 o = readCRAM v2 o) →
      (ConvertTo8BitColor v1 p).map (fun c => c.blue) =
        (ConvertTo8BitColor v2 p).map (fun c => c.blue)) ∧
    (v1.m_bGameGear = false → readCRAM v1 p = readCRAM v2 p →
      ConvertTo8BitColor v1 p = ConvertTo8BitColor v2 p) := by
  have some_iff : v1.m_pVdpCRAM.length = v2.m_pVdpCRAM.length →
      ∀ o : Int, (readCRAM v1 o).isSome = (readCRAM v2 o).isSome := by
    intro hlen o
    rw [Bool.eq_iff_iff, readCRAM_isSome_iff, readCRAM_isSome_iff, hlen]
  refine ⟨?_, ?_, ?_⟩
  · intro hmode hlen hsame
    have hlo : readCRAM v1 (p * 2) = readCRAM v2 (p * 2) := hsame _ (by omega)
    have hhi := some_iff hlen (p * 2 + 1)
    rw [ConvertTo8BitColor_gg_eq v1 p hmode, ConvertTo8BitColor_gg_eq v2 p (hvariant ▸ hmode),
      ← hlo]
    cases readCRAM v1 (p * 2) with
    | none => rfl
    | some lo =>
      cases h1 : readCRAM v1 (p * 2 + 1) with
      | none =>
        cases h2 : readCRAM v2 (p * 2 + 1) with
        | none => rfl
        | some hi2 => rw [h1, h2] at hhi; cases hhi
      | some hi1 =>
        cases h2 : readCRAM v2 (p * 2 + 1) with
        | none => rw [h1, h2] at hhi; cases hhi
        | some hi2 => simp only [Option.some_bind, Option.map_some']
  · intro hmode hlen hsame
    have hhi : readCRAM v1 (p * 2 + 1) = readCRAM v2 (p * 2 + 1) := hsame _ (by omega)
    have hlo := some_iff hlen (p * 2)
    rw [ConvertTo8BitColor_gg_eq v1 p hmode, ConvertTo8BitColor_gg_eq v2 p (hvariant ▸ hmode),
      ← hhi]
    cases h1 : readCRAM v1 (p * 2) with
    | none =>
      cases h2 : readCRAM v2 (p * 2) with
      | none => rfl
      | some lo2 => rw [h1, h2] at hlo; cases hlo
    | some lo1 =>
      cases h2 : readCRAM v2 (p * 2) with
      | none => rw [h1, h2] at hlo; cases hlo
      | some lo2 =>
        cases readCRAM v1 (p * 2 + 1) with
        | none => simp only [Option.some_bind, Option.map_none']
        | some hi => simp only [Option.some_bind, Option.map_some']
  · intro hmode hsame
    rw [ConvertTo8BitColor_sms_eq v1 p hmode, ConvertTo8BitColor_sms_eq v2 p (hvariant ▸ hmode),
      hsame]

theorem cram_byte_footprint_witness :
    ((ConvertTo8BitColor (sampleVideo true [0x3F, 0x1B, 0x21, 0xF7]) 1).map
        (fun c => (c.red, c.green)) =
      (ConvertTo8BitColor (sampleVideo true [0x3F, 0x1B, 0x21, 0x05]) 1).map
        (fun c => (c.red, c.green))) ∧
    ((ConvertTo8BitColor (sampleVideo true [0x3F, 0x1B, 0x21, 0xF7]) 1).map (fun c => c.blue) =
      (ConvertTo8BitColor (sampleVideo true [0x3F, 0x1B, 0x9C, 0xF7]) 1).map
        (fun c => c.blue)) ∧
    (ConvertTo8BitColor (sampleVideo false [0x3F, 0x1B]) 1 =
      ConvertTo8BitColor (sampleVideo false [0x00, 0x1B, 0x07]) 1) := by
  refine ⟨(cram_byte_footprint (sampleVideo true [0x3F, 0x1B, 0x21, 0xF7])
      (sampleVideo true [0x3F, 0x1B, 0x21, 0x05]) 1 rfl).1 rfl rfl ?_,
    (cram_byte_footprint (sampleVideo true [0x3F, 0x1B, 0x21, 0xF7])
      (sampleVideo true [0x3F, 0x1B, 0x9C, 0xF7]) 1 rfl).2.1 rfl rfl ?_,
    (cram_byte_footprint (sampleVideo false [0x3F, 0x1B])
      (sampleVideo false [0x00, 0x1B, 0x07]) 1 rfl).2.2 rfl (by decide)⟩
  · intro o ho
    unfold readCRAM
    split
    · rfl
    · have h3 : o.toNat ≠ 3 := by omega
      match h : o.toNat with
      | 0 => rfl
      | 1 => rfl
      | 2 => rfl
      | 3 => exact absurd h h3
      | n + 4 => rfl
  · intro o ho
    unfold readCRAM
    split
    · rfl
    · have h2 : o.toNat ≠ 2 := by omega
      match h : o.toNat with
      | 0 => rfl
      | 1 => rfl
      | 2 => exact absurd h h2
      | 3 => rfl
      | n + 4 => rfl

/-- C5. Master System mode: when the CRAM byte at offset `p` has all six colour bits set
(`CRAM[p] & 0x3F == 0x3F`), `ConvertTo8BitColor p` returns
(red, green, blue, alpha) = (255, 255, 255, 255). -/
theorem sms_all_bits_set_is_white (v : Video) (p : Int) (b : Nat)
    (hmode : v.m_bGameGear = false) (hread : readCRAM v p = some b)
    (hbits : b &&& 0x3F = 0x3F) :
    ConvertTo8BitColor v p = some { red := 255, green := 255, blue := 255, alpha := 255 } := by
  rw [ConvertTo8BitColor_sms v p b hmode hread]
  rw [and63_eq_mod] at hbits
  have hr : (b % 4 * 255 / 3) % 256 = 255 := by omega
  have hg : (b / 4 % 4 * 255 / 3) % 256 = 255 := by omega
  have hb : (b / 16 % 4 * 255 / 3) % 256 = 255 := by omega
  simp only [toU8, and3_eq_mod, shr2_eq_div, shr4_eq_div, hr, hg, hb]
  rfl

theorem sms_all_bits_set_is_white_witness :
    ConvertTo8BitColor (sampleVideo false [0x3F, 0x3F]) 0 =
      some { red := 255, green := 255, blue := 255, alpha := 255 } :=
  sms_all_bits_set_is_white (sampleVideo false [0x3F, 0x3F]) 0 0x3F (by decide) (by decide)
    (by decide)

/-- C6. In either mode, for every palette index and CRAM content, the colour returned by
`ConvertTo8BitColor` has alpha `0xFF`: any returned colour has it, and a colour is returned
whenever the offsets indexed lie inside the CRAM buffer. -/
theorem alpha_is_0xFF (v : Video) (p : Int) :
    (∀ c : GS_Color, ConvertTo8BitColor v p = some c → c.alpha = 0xFF) ∧
    ((∀ o ∈ cramOffsets v.m_bGameGear p, (readCRAM v o).isSome = true) →
      ∃ c : GS_Color, ConvertTo8BitColor v p = some c ∧ c.alpha = 0xFF) := by
  have hall : ∀ c : GS_Color, ConvertTo8BitColor v p = some c → c.alpha = 0xFF := by
    intro c h
    cases hmode : v.m_bGameGear with
    | false =>
      rw [ConvertTo8BitColor_sms_eq v p hmode] at h
      simp only [Option.map_eq_some'] at h
      obtain ⟨b, _, hc⟩ := h
      rw [← hc]
      rfl
    | true =>
      rw [ConvertTo8BitColor_gg_eq v p hmode] at h
      simp only [Option.bind_eq_some, Option.map_eq_some'] at h
      obtain ⟨lo, _, hi, _, hc⟩ := h
      rw [← hc]
      rfl
  refine ⟨hall, ?_⟩
  intro hreads
  obtain ⟨c, hc⟩ := Option.isSome_iff_exists.mp ((ConvertTo8BitColor_isSome_iff v p).mpr hreads)
  exact ⟨c, hc, hall c hc⟩

theorem alpha_is_0xFF_witness :
    (GS_Color.mk 17 34 119 255).alpha = 0xFF ∧
    (∃ c : GS_Color, ConvertTo8BitColor (sampleVideo false [0x3F, 0x1B]) 1 = some c ∧
      c.alpha = 0xFF) :=
  ⟨(alpha_is_0xFF (sampleVideo true [0x3F, 0x1B, 0x21, 0xF7]) 1).1 _ (by decide),
   (alpha_is_0xFF (sampleVideo false [0x3F, 0x1B]) 1).2 (by decide)⟩

/-! ## Control port -/

/-- The address formed from two control bytes fits in 14 bits. -/
theorem control_address_lt (a b : Nat) (ha : a < 256) :
    ((b &&& 0x3F) <<< 8) ||| a = 256 * (b % 64) + a ∧ ((b &&& 0x3F) <<< 8) ||| a < 0x4000 := by
  have e : ((b &&& 0x3F) <<< 8) ||| a = 256 * (b % 64) + a := by
    rw [Nat.lor_comm, or_shl8_eq_add a _ ha, and63_eq_mod]
  refine ⟨e, ?_⟩
  rw [e]
  omega

/-- The first control byte of a sequence only fills the latch. -/
theorem WriteControl_first (v : Video) (a : u8) (hempty : v.m_bFirstByteInSequence = true) :
    WriteControl v a = { v with m_VdpLatch := a, m_bFirstByteInSequence := false } := by
  simp [WriteControl, hempty]

/-- The code, latch flag and address left by the second control byte of a sequence. -/
theorem WriteControl_second (v : Video) (b : u8) (hfull : v.m_bFirstByteInSequence = false) :
    (WriteControl v b).m_VdpCode = toU8 (b.val >>> 6) ∧
    (WriteControl v b).m_bFirstByteInSequence = true ∧
    (WriteControl v b).m_VdpAddress =
      if b.val >>> 6 = VDP_READ_VRAM_OPERATION then
        toU16 (((((b.val &&& 0x3F) <<< 8) ||| v.m_VdpLatch.val) + 1) &&& 0x3FFF)
      else toU16 (((b.val &&& 0x3F) <<< 8) ||| v.m_VdpLatch.val) := by
  unfold WriteControl
  rw [if_neg (by simp [hfull])]
  dsimp only
  by_cases h0 : b.val >>> 6 = VDP_READ_VRAM_OPERATION
  · simp only [if_pos h0, and_self]
  · simp only [if_neg h0]
    by_cases h2 : b.val >>> 6 = VDP_WRITE_REG_OPERATION
    · simp only [if_pos h2]
      split_ifs <;> simp only [writeRegister, and_self]
    · simp only [if_neg h2, and_self]

/-- The claim C7 as stated fails on a VRAM read command: from an empty latch, the control
bytes `0x00, 0x00` leave the address at 1, not at `((0x00 & 0x3F) << 8) | 0x00 = 0`. -/
theorem control_latch_read_vram_counterexample :
    (sampleVideo false []).m_bFirstByteInSequence = true ∧
    ¬ ((WriteControl (WriteControl (sampleVideo false []) 0x00) 0x00).m_VdpAddress.val =
        (((0x00 : u8).val &&& 0x3F) <<< 8) ||| (0x00 : u8).val) ∧
    (WriteControl (WriteControl (sampleVideo false []) 0x00) 0x00).m_VdpAddress.val = 1 := by
  decide

/-- C7 (amended). From any state with an empty first-byte latch and for all bytes `a`, `b`:
after `WriteControl a` the latch is half-full holding `a`; after `WriteControl a` then
`WriteControl b` the code is `b >> 6`, the latch is empty again, and the address is
`((b & 0x3F) << 8) | a` when the code is not READ_VRAM, and that value plus one, wrapped to
14 bits, when the code is READ_VRAM (the pre-fetch increments it). -/
theorem control_latch_protocol (v : Video) (a b : u8)
    (hempty : v.m_bFirstByteInSequence = true) :
    ((WriteControl v a).m_bFirstByteInSequence = false ∧ (WriteControl v a).m_VdpLatch = a) ∧
    (WriteControl (WriteControl v a) b).m_VdpCode.val = b.val >>> 6 ∧
    (WriteControl (WriteControl v a) b).m_bFirstByteInSequence = true ∧
    (b.val >>> 6 ≠ VDP_READ_VRAM_OPERATION →
      (WriteControl (WriteControl v a) b).m_VdpAddress.val = ((b.val &&& 0x3F) <<< 8) ||| a.val) ∧
    (b.val >>> 6 = VDP_READ_VRAM_OPERATION →
      (WriteControl (WriteControl v a) b).m_VdpAddress.val =
        ((((b.val &&& 0x3F) <<< 8) ||| a.val) + 1) &&& 0x3FFF) := by
  have ha := a.isLt
  have hb := b.isLt
  obtain ⟨haddr, hlt⟩ := control_address_lt a.val b.val ha
  have hcode : (b.val >>> 6) % 256 = b.val >>> 6 := by
    rw [shr6_eq_div]; omega
  have hwrap : ((((b.val &&& 0x3F) <<< 8) ||| a.val) + 1) &&& 0x3FFF < 65536 := by
    have := Nat.and_pow_two_sub_one_eq_mod ((((b.val &&& 0x3F) <<< 8) ||| a.val) + 1) 14
    have e : ((((b.val &&& 0x3F) <<< 8) ||| a.val) + 1) &&& 0x3FFF =
        ((((b.val &&& 0x3F) <<< 8) ||| a.val) + 1) % 2 ^ 14 := this
    rw [e]; omega
  have hfirst : (WriteControl v a).m_bFirstByteInSequence = false ∧
      (WriteControl v a).m_VdpLatch = a := by
    rw [WriteControl_first v a hempty]
    exact ⟨rfl, rfl⟩
  obtain ⟨hc, hf, hadr⟩ := WriteControl_second (WriteControl v a) b hfirst.1
  rw [hfirst.2] at hadr
  refine ⟨hfirst, ?_, hf, ?_, ?_⟩
  · rw [hc, toU8_val, hcode]
  · intro hne
    rw [hadr, if_neg hne]
    show (((b.val &&& 0x3F) <<< 8) ||| a.val) % 65536 = _
    omega
  · intro heq
    rw [hadr, if_pos heq]
    show (((((b.val &&& 0x3F) <<< 8) ||| a.val) + 1) &&& 0x3FFF) % 65536 = _
    omega

theorem control_latch_protocol_witness :
    ((WriteControl (sampleVideo false []) 0x34).m_bFirstByteInSequence = false ∧
      (WriteControl (sampleVideo false []) 0x34).m_VdpLatch = 0x34) ∧
    (WriteControl (WriteControl (sampleVideo false []) 0x34) 0x52).m_VdpCode.val
      = (0x52 : u8).val >>> 6 ∧
    (WriteControl (WriteControl (sampleVideo false []) 0x34) 0x52).m_bFirstByteInSequence
      = true ∧
    (WriteControl (WriteControl (sampleVideo false []) 0x34) 0x52).m_VdpAddress.val
      = (((0x52 : u8).val &&& 0x3F) <<< 8) ||| (0x34 : u8).val ∧
    (WriteControl (WriteControl (sampleVideo false []) 0xFF) 0x3F).m_VdpAddress.val
      = (((((0x3F : u8).val &&& 0x3F) <<< 8) ||| (0xFF : u8).val) + 1) &&& 0x3FFF :=
  ⟨(control_latch_protocol (sampleVideo false []) 0x34 0x52 (by decide)).1,
   (control_latch_protocol (sampleVideo false []) 0x34 0x52 (by decide)).2.1,
   (control_latch_protocol (sampleVideo false []) 0x34 0x52 (by decide)).2.2.1,
   (control_latch_protocol (sampleVideo false []) 0x34 0x52 (by decide)).2.2.2.1 (by decide),
   (control_latch_protocol (sampleVideo false []) 0xFF 0x3F (by decide)).2.2.2.2 (by decide)⟩

/-- C8. For every second control byte `b` the operation code `b >> 6` is exactly one of the
four defined constants, which are pairwise distinct: READ_VRAM iff `b` is in 0x00..0x3F,
WRITE_VRAM iff in 0x40..0x7F, WRITE_REG iff in 0x80..0xBF, WRITE_CRAM iff in 0xC0..0xFF.
The bytes 0x80, 0x40 and 0xC0 decode to WRITE_REG, WRITE_VRAM and WRITE_CRAM. -/
theorem operation_code_total (b : u8) :
    (b.val >>> 6 = VDP_READ_VRAM_OPERATION ↔ b.val ≤ 0x3F) ∧
    (b.val >>> 6 = VDP_WRITE_VRAM_OPERATION ↔ 0x40 ≤ b.val ∧ b.val ≤ 0x7F) ∧
    (b.val >>> 6 = VDP_WRITE_REG_OPERATION ↔ 0x80 ≤ b.val ∧ b.val ≤ 0xBF) ∧
    (b.val >>> 6 = VDP_WRITE_CRAM_OPERATION ↔ 0xC0 ≤ b.val ∧ b.val ≤ 0xFF) ∧
    b.val >>> 6 ∈ [VDP_READ_VRAM_OPERATION, VDP_WRITE_VRAM_OPERATION,
      VDP_WRITE_REG_OPERATION, VDP_WRITE_CRAM_OPERATION] ∧
    ([VDP_READ_VRAM_OPERATION, VDP_WRITE_VRAM_OPERATION, VDP_WRITE_REG_OPERATION,
      VDP_WRITE_CRAM_OPERATION].filter (fun k => decide (k = b.val >>> 6))).length = 1 ∧
    [VDP_READ_VRAM_OPERATION, VDP_WRITE_VRAM_OPERATION, VDP_WRITE_REG_OPERATION,
      VDP_WRITE_CRAM_OPERATION].Nodup ∧
    (0x80 : u8).val >>> 6 = VDP_WRITE_REG_OPERATION ∧
    (0x40 : u8).val >>> 6 = VDP_WRITE_VRAM_OPERATION ∧
    (0xC0 : u8).val >>> 6 = VDP_WRITE_CRAM_OPERATION := by
  have hb := b.isLt
  have hcases : b.val / 64 = 0 ∨ b.val / 64 = 1 ∨ b.val / 64 = 2 ∨ b.val / 64 = 3 := by omega
  simp only [shr6_eq_div, VDP_READ_VRAM_OPERATION, VDP_WRITE_VRAM_OPERATION,
    VDP_WRITE_REG_OPERATION, VDP_WRITE_CRAM_OPERATION]
  refine ⟨by omega, by omega, by omega, by omega, ?_, ?_, by decide, by decide, by decide,
    by decide⟩
  · simp only [List.mem_cons, List.mem_singleton, List.mem_nil_iff, or_false]
    omega
  · rcases hcases with h | h | h | h <;> rw [h] <;> decide

/-! ## Reserved bits and read bounds -/

/-- C9. Reserved CRAM bits do not affect the colour. Master System mode: a CRAM holding the
byte `b` at offset `p` and one holding `b & 0x3F` there give the same colour for palette
index `p`. Game Gear mode: a CRAM holding `lo`, `hi` at offsets `2p`, `2p+1` and one holding
`lo`, `hi & 0x0F` there give the same colour for palette index `p`. -/
theorem reserved_bits_ignored (v1 v2 : Video) (p : Int)
    (hvariant : v1.m_bGameGear = v2.m_bGameGear) :
    (v1.m_bGameGear = false → ∀ b : Nat,
      readCRAM v1 p = some b → readCRAM v2 p = some (b &&& 0x3F) →
      ∃ c : GS_Color, ConvertTo8BitColor v1 p = some c ∧ ConvertTo8BitColor v2 p = some c) ∧
    (v1.m_bGameGear = true → ∀ lo hi : Nat,
      readCRAM v1 (2 * p) = some lo → readCRAM v1 (2 * p + 1) = some hi →
      readCRAM v2 (2 * p) = some lo → readCRAM v2 (2 * p + 1) = some (hi &&& 0x0F) →
      ∃ c : GS_Color, ConvertTo8BitColor v1 p = some c ∧ ConvertTo8BitColor v2 p = some c) := by
  constructor
  · intro hmode b h1 h2
    refine ⟨_, ConvertTo8BitColor_sms v1 p b hmode h1, ?_⟩
    rw [ConvertTo8BitColor_sms v2 p _ (hvariant ▸ hmode) h2]
    have er : b % 64 % 4 = b % 4 := by omega
    have eg : b % 64 / 4 % 4 = b / 4 % 4 := by omega
    have eb : b % 64 / 16 % 4 = b / 16 % 4 := by omega
    simp only [and63_eq_mod, and3_eq_mod, shr2_eq_div, shr4_eq_div, er, eg, eb]
  · intro hmode lo hi h1lo h1hi h2lo h2hi
    rw [Int.mul_comm] at h1lo h1hi h2lo h2hi
    refine ⟨_, ConvertTo8BitColor_gg v1 p lo hi hmode h1lo h1hi, ?_⟩
    rw [ConvertTo8BitColor_gg v2 p lo _ (hvariant ▸ hmode) h2lo h2hi]
    simp only [and15_eq_mod, Nat.mod_mod]

theorem reserved_bits_ignored_witness :
    (∃ c : GS_Color, ConvertTo8BitColor (sampleVideo false [0x00, 0xDB]) 1 = some c ∧
      ConvertTo8BitColor (sampleVideo false [0x00, 0x1B]) 1 = some c) ∧
    (∃ c : GS_Color, ConvertTo8BitColor (sampleVideo true [0x3F, 0x1B, 0x21, 0xF7]) 1 = some c ∧
      ConvertTo8BitColor (sampleVideo true [0x3F, 0x1B, 0x21, 0x07]) 1 = some c) :=
  ⟨(reserved_bits_ignored (sampleVideo false [0x00, 0xDB]) (sampleVideo false [0x00, 0x1B]) 1
      rfl).1 (by decide) 0xDB (by decide) (by decide),
   (reserved_bits_ignored (sampleVideo true [0x3F, 0x1B, 0x21, 0xF7])
      (sampleVideo true [0x3F, 0x1B, 0x21, 0x07]) 1 rfl).2 (by decide) 0x21 0xF7
      (by decide) (by decide) (by decide) (by decide)⟩

/-- C10. For a palette index `p` with `0 <= p < 32`, every CRAM offset that
`ConvertTo8BitColor p` indexes lies inside the CRAM of the active variant: the offset `p` is
below 32 in Master System mode, the offsets `2p` and `2p+1` are below 64 in Game Gear mode.
So on a CRAM buffer of at least that size every read succeeds and a colour is returned. -/
theorem palette_reads_in_bounds (v : Video) (p : Int) (h0 : 0 ≤ p) (h32 : p < 32) :
    (∀ o ∈ cramOffsets v.m_bGameGear p, 0 ≤ o ∧ o < cramSize v.m_bGameGear) ∧
    (v.m_bGameGear = false → cramOffsets v.m_bGameGear p = [p, p, p] ∧ p < 32) ∧
    (v.m_bGameGear = true →
      cramOffsets v.m_bGameGear p = [2 * p, 2 * p, 2 * p + 1] ∧ 2 * p < 64 ∧ 2 * p + 1 < 64) ∧
    (cramSize v.m_bGameGear ≤ v.m_pVdpCRAM.length →
      (∀ o ∈ cramOffsets v.m_bGameGear p, (readCRAM v o).isSome = true) ∧
      (ConvertTo8BitColor v p).isSome = true) := by
  have hin : ∀ o ∈ cramOffsets v.m_bGameGear p, 0 ≤ o ∧ o < cramSize v.m_bGameGear := by
    intro o ho
    cases hmode : v.m_bGameGear with
    | false =>
      rw [hmode] at ho
      simp only [cramOffsets, List.mem_cons, List.mem_singleton, List.mem_nil_iff, or_false,
        or_self, Bool.false_eq_true, if_false] at ho
      simp only [cramSize, Bool.false_eq_true, if_false]
      omega
    | true =>
      rw [hmode] at ho
      simp only [cramOffsets, shl1_eq_mul, List.mem_cons, List.mem_singleton, List.mem_nil_iff,
        or_false, if_true] at ho
      simp only [cramSize, if_true]
      omega
  refine ⟨hin, ?_, ?_, ?_⟩
  · intro hmode
    rw [hmode]
    exact ⟨by simp [cramOffsets], h32⟩
  · intro hmode
    rw [hmode]
    refine ⟨?_, by omega, by omega⟩
    simp only [cramOffsets, shl1_eq_mul, if_true, Int.mul_comm p 2]
  · intro hsize
    have hreads : ∀ o ∈ cramOffsets v.m_bGameGear p, (readCRAM v o).isSome = true := by
      intro o ho
      rw [readCRAM_isSome_iff]
      have := hin o ho
      omega
    exact ⟨hreads, (ConvertTo8BitColor_isSome_iff v p).mpr hreads⟩

theorem palette_reads_in_bounds_witness :
    (cramOffsets (sampleVideo true (List.replicate 64 0x5A)).m_bGameGear 31
        = [2 * 31, 2 * 31, 2 * 31 + 1] ∧ (2 * 31 : Int) < 64 ∧ (2 * 31 + 1 : Int) < 64) ∧
    ((∀ o ∈ cramOffsets (sampleVideo true (List.replicate 64 0x5A)).m_bGameGear 31,
        (readCRAM (sampleVideo true (List.replicate 64 0x5A)) o).isSome = true) ∧
      (ConvertTo8BitColor (sampleVideo true (List.replicate 64 0x5A)) 31).isSome = true) ∧
    (cramOffsets (sampleVideo false (List.replicate 32 0x2D)).m_bGameGear 31 = [31, 31, 31] ∧
      (31 : Int) < 32) ∧
    ((∀ o ∈ cramOffsets (sampleVideo false (List.replicate 32 0x2D)).m_bGameGear 31,
        (readCRAM (sampleVideo false (List.replicate 32 0x2D)) o).isSome = true) ∧
      (ConvertTo8BitColor (sampleVideo false (List.replicate 32 0x2D)) 31).isSome = true) :=
  ⟨(palette_reads_in_bounds (sampleVideo true (List.replicate 64 0x5A)) 31
      (by decide) (by decide)).2.2.1 rfl,
   (palette_reads_in_bounds (sampleVideo true (List.replicate 64 0x5A)) 31
      (by decide) (by decide)).2.2.2 (by decide),
   (palette_reads_in_bounds (sampleVideo false (List.replicate 32 0x2D)) 31
      (by decide) (by decide)).2.1 rfl,
   (palette_reads_in_bounds (sampleVideo false (List.replicate 32 0x2D)) 31
      (by decide) (by decide)).2.2.2 (by decide)⟩

/-! ## Controller detection in `sdl_init` -/

/-- What the detection loop does guarantee: entered with `gamepads_found <= 2` and every
earlier store at a slot `<= 2`, it ends with `gamepads_found <= 3` and every store at a
slot `<= 2`. -/
theorem gamepadLoop_bounds (sdl : SdlJoysticks) (remaining : Nat) :
    ∀ (i : Nat) (s : GamepadScan), s.gamepads_found ≤ 2 →
      (∀ st ∈ s.stores, st.1 ≤ 2) →
      (gamepadLoop sdl remaining i s).gamepads_found ≤ 3 ∧
        ∀ st ∈ (gamepadLoop sdl remaining i s).stores, st.1 ≤ 2 := by
  induction remaining with
  | zero =>
    intro i s hfound hstores
    exact ⟨by simp only [gamepadLoop]; omega, hstores⟩
  | succ k ih =>
    intro i s hfound hstores
    have hstores1 : ∀ h : Option Nat, ∀ st ∈ s.stores ++ [(s.gamepads_found, h)], st.1 ≤ 2 := by
      intro h st hst
      rcases List.mem_append.mp hst with hold | hnew
      · exact hstores st hold
      · rw [List.mem_singleton] at hnew
        rw [hnew]
        exact hfound
    unfold gamepadLoop
    by_cases hgc : sdl.SDL_IsGameController i = true
    · rw [if_pos hgc]
      cases hopen : sdl.SDL_GameControllerOpen i with
      | none => exact ih (i + 1) _ hfound (hstores1 none)
      | some h =>
        dsimp only
        by_cases hbreak : s.gamepads_found + 1 > 2
        · rw [if_pos hbreak]
          exact ⟨by dsimp only; omega, hstores1 (some h)⟩
        · rw [if_neg hbreak]
          exact ih (i + 1) _ (by dsimp only; omega) (hstores1 (some h))
    · rw [if_neg hgc]
      exact ih (i + 1) s hfound hstores

/-- C11 fails on the code: with three attached joysticks that are all game controllers and
all open successfully, the third controller is stored at `application_gamepad[2]` and
`gamepads_found` ends at 3, beyond the two slots 0 and 1. -/
theorem sdl_init_third_controller_overruns :
    sdl_init_gamepads
        { SDL_NumJoysticks := 3
          SDL_IsGameController := fun _ => true
          SDL_GameControllerOpen := fun i => some (100 + i) } =
      { gamepads_found := 3, stores := [(0, some 100), (1, some 101), (2, some 102)] } := by
  decide

/-! ## H-counter table -/

set_option maxRecDepth 100000 in
theorem kVdpHCounter_eq_reference :
    kVdpHCounter.map Fin.val = (List.range 0x200).map hCounterReference := by
  decide

set_option maxRecDepth 100000 in
theorem kVdpHCounter_length : kVdpHCounter.length = 0x200 := by
  decide

/-- C12. The table `kVdpHCounter` has 0x200 entries and equals the reference definition at
every index `i` in 0..511: `i` for `i <= 233`, `i - 87` for `234 <= i <= 342`, 0 for
`343 <= i <= 511`. Consequently every 8-bit value occurs in the table. -/
theorem kVdpHCounter_matches_reference :
    kVdpHCounter.length = 0x200 ∧
    (∀ i : Fin 0x200, (kVdpHCounter[i.val]?).map Fin.val = some (hCounterReference i.val)) ∧
    (∀ x : u8, x ∈ kVdpHCounter) := by
  have hentry : ∀ i : Nat, i < 0x200 →
      (kVdpHCounter[i]?).map Fin.val = some (hCounterReference i) := by
    intro i hi
    rw [← List.getElem?_map, kVdpHCounter_eq_reference, List.getElem?_map,
      List.getElem?_range hi]
    rfl
  refine ⟨kVdpHCounter_length, fun i => hentry i.val i.isLt, ?_⟩
  intro x
  have hx := x.isLt
  have hidx : ∃ i : Nat, i < 0x200 ∧ hCounterReference i = x.val := by
    by_cases hlow : x.val ≤ 233
    · exact ⟨x.val, by omega, by simp only [hCounterReference, if_pos hlow]⟩
    · refine ⟨x.val + 87, by omega, ?_⟩
      have h1 : ¬ (x.val + 87 ≤ 233) := by omega
      have h2 : x.val + 87 ≤ 342 := by omega
      simp only [hCounterReference, if_neg h1, if_pos h2]
      omega
  obtain ⟨i, hi, href⟩ := hidx
  have he := hentry i hi
  rw [Option.map_eq_some'] at he
  obtain ⟨e, hget, hval⟩ := he
  have hex : e = x := Fin.ext (by rw [hval, href])
  rw [← hex]
  exact List.getElem?_mem hget

/-! ## Injectivity of the colour conversion -/

theorem scale2_eq (n : Nat) : (n % 4 * 255 / 3) % 256 = 85 * (n % 4) := by
  omega

theorem scale4_eq (n : Nat) : (n % 16 * 255 / 15) % 256 = 17 * (n % 16) := by
  omega

/-- C13. `ConvertTo8BitColor` is injective on the meaningful colour bits. Master System mode:
if CRAM bytes `b1`, `b2` at offset `p` give the same (red, green, blue), then
`b1 & 0x3F == b2 & 0x3F`. Game Gear mode: if the CRAM words `w1 = lo1 | (hi1 << 8)` and
`w2 = lo2 | (hi2 << 8)` at offsets `2p`, `2p+1` give the same (red, green, blue), then
`w1 & 0x0FFF == w2 & 0x0FFF`. -/
theorem colour_bits_injective (v1 v2 : Video) (p : Int)
    (hvariant : v1.m_bGameGear = v2.m_bGameGear)
    (hsame : (ConvertTo8BitColor v1 p).map (fun c => (c.red, c.green, c.blue)) =
      (ConvertTo8BitColor v2 p).map (fun c => (c.red, c.green, c.blue))) :
    (v1.m_bGameGear = false → ∀ b1 b2 : Nat,
      readCRAM v1 p = some b1 → readCRAM v2 p = some b2 → b1 &&& 0x3F = b2 &&& 0x3F) ∧
    (v1.m_bGameGear = true → ∀ lo1 hi1 lo2 hi2 : Nat,
      readCRAM v1 (2 * p) = some lo1 → readCRAM v1 (2 * p + 1) = some hi1 →
      readCRAM v2 (2 * p) = some lo2 → readCRAM v2 (2 * p + 1) = some hi2 →
      (lo1 ||| (hi1 <<< 8)) &&& 0x0FFF = (lo2 ||| (hi2 <<< 8)) &&& 0x0FFF) := by
  have and4095 : ∀ x : Nat, x &&& 0x0FFF = x % 4096 :=
    fun x => Nat.and_pow_two_sub_one_eq_mod x 12
  constructor
  · intro hmode b1 b2 h1 h2
    rw [ConvertTo8BitColor_sms v1 p b1 hmode h1,
      ConvertTo8BitColor_sms v2 p b2 (hvariant ▸ hmode) h2] at hsame
    simp only [Option.map_some', Option.some.injEq, Prod.mk.injEq] at hsame
    obtain ⟨hr, hg, hb⟩ := hsame
    have hr := congrArg Fin.val hr
    have hg := congrArg Fin.val hg
    have hb := congrArg Fin.val hb
    simp only [toU8_val, and3_eq_mod, shr2_eq_div, shr4_eq_div, scale2_eq] at hr hg hb
    have er : b1 % 4 = b2 % 4 := by omega
    have eg : b1 / 4 % 4 = b2 / 4 % 4 := by omega
    have eb : b1 / 16 % 4 = b2 / 16 % 4 := by omega
    rw [and63_eq_mod, and63_eq_mod]
    omega
  · intro hmode lo1 hi1 lo2 hi2 h1lo h1hi h2lo h2hi
    have hlt1 := readCRAM_lt v1 _ lo1 h1lo
    have hlt2 := readCRAM_lt v2 _ lo2 h2lo
    rw [Int.mul_comm] at h1lo h1hi h2lo h2hi
    rw [ConvertTo8BitColor_gg v1 p lo1 hi1 hmode h1lo h1hi,
      ConvertTo8BitColor_gg v2 p lo2 hi2 (hvariant ▸ hmode) h2lo h2hi] at hsame
    simp only [Option.map_some', Option.some.injEq, Prod.mk.injEq] at hsame
    obtain ⟨hr, hg, hb⟩ := hsame
    have hr := congrArg Fin.val hr
    have hg := congrArg Fin.val hg
    have hb := congrArg Fin.val hb
    simp only [toU8_val, and15_eq_mod, shr4_eq_div, scale4_eq] at hr hg hb
    have er : lo1 % 16 = lo2 % 16 := by omega
    have eg : lo1 / 16 % 16 = lo2 / 16 % 16 := by omega
    have eb : hi1 % 16 = hi2 % 16 := by omega
    have elo : lo1 = lo2 := by omega
    rw [and4095, and4095, or_shl8_eq_add lo1 hi1 hlt1, or_shl8_eq_add lo2 hi2 hlt2, elo]
    omega

theorem colour_bits_injective_witness :
    ((0xDB : Nat) &&& 0x3F = 0x1B &&& 0x3F) ∧
    (((0x21 : Nat) ||| (0xF7 <<< 8)) &&& 0x0FFF = (0x21 ||| (0x07 <<< 8)) &&& 0x0FFF) :=
  ⟨(colour_bits_injective (sampleVideo false [0x00, 0xDB]) (sampleVideo false [0x00, 0x1B]) 1
      rfl (by decide)).1 (by decide) 0xDB 0x1B (by decide) (by decide),
   (colour_bits_injective (sampleVideo true [0x3F, 0x1B, 0x21, 0xF7])
      (sampleVideo true [0x3F, 0x1B, 0x21, 0x07]) 1 rfl (by decide)).2 (by decide)
      0x21 0xF7 0x21 0x07 (by decide) (by decide) (by decide) (by decide)⟩

end Gearsystem
